import Mathlib

/-!
A verification development for `scripts/check_version_consistency.py`, a
pre-commit script that extracts version strings from five project files,
checks that the found values agree, that the common value is well formed
semantic versioning, and that the two mandatory files contributed a value.

Modelling conventions:
* The filesystem is a record of the five fixed paths the script reads; each
  field is `none` (file absent) or `some content`.
* `print` calls are modelled by lists of the printed strings, in order; each
  list entry is the argument of one `print` call.
* Python regular expressions are modelled by hand-rolled recognizers on
  `List Char`.  Each regex used by the script is deterministic (no greedy
  sub-pattern can steal characters that a later required piece needs, see the
  comments at each recognizer), so greedy matching without backtracking is
  faithful.
* Python `\s` and `\d` are Unicode-aware; the model restricts them to their
  ASCII meaning, which covers the ASCII version strings the script targets.
-/

namespace VersionCheck

/-- Python `\s`, restricted to ASCII: space, tab, newline, CR, VT, FF. -/
def isPySpace (c : Char) : Bool :=
  c = ' ' || c = '\t' || c = '\n' || c = '\r' || c = '\x0b' || c = '\x0c'

/-- The character class `["\']` used by the script's regexes. -/
def isQuote (c : Char) : Bool := c = '"' || c = '\''

/-- `[a-zA-Z0-9-]`, the identifier class of the semver regex. -/
def isIdentChar (c : Char) : Bool := c.isAlphanum || c = '-'

/-- Consume the literal `p` from the front of `cs` (regex literal text),
returning the remainder on success. -/
def dropLit : List Char → List Char → Option (List Char)
  | [], cs => some cs
  | _ :: _, [] => none
  | p :: ps, c :: cs => if c = p then dropLit ps cs else none

/-- Does the needle occur at the very front of the haystack? -/
def isSubAt : List Char → List Char → Bool
  | [], _ => true
  | _ :: _, [] => false
  | p :: ps, c :: cs => c = p && isSubAt ps cs

/-- Does the needle occur anywhere in the haystack? -/
def containsSub (needle : List Char) : List Char → Bool
  | [] => needle.isEmpty
  | c :: cs => isSubAt needle (c :: cs) || containsSub needle cs

/-- Python `needle in haystack` substring containment. -/
def containsStr (needle hay : String) : Bool := containsSub needle.toList hay.toList

/-- `re.search` of an unanchored pattern: try the matcher at every position
from left to right; the leftmost success wins. -/
def searchAnywhere (m : List Char → Option String) : List Char → Option String
  | [] => m []
  | c :: cs =>
    match m (c :: cs) with
    | some v => some v
    | none => searchAnywhere m cs

/-- `re.search` of a `^`-anchored pattern under `re.MULTILINE`: the matcher
is tried at position 0 and right after every newline, left to right.
`atStart` records whether the current position is such a line start. -/
def searchML (m : List Char → Option String) : Bool → List Char → Option String
  | true, cs =>
    match m cs with
    | some v => some v
    | none =>
      match cs with
      | [] => none
      | c :: rest => searchML m (c = '\n') rest
  | false, [] => none
  | false, c :: rest => searchML m (c = '\n') rest

/-- Matcher for `KEY\s*=\s*["\']([^"\']+)["\']` at the current position,
returning the captured group.  The regex is deterministic here: `=` is not
in `\s`, and the greedy `[^"\']+` stops exactly at the first quote, which
the closing `["\']` then has to match, so no backtracking can succeed where
the greedy parse fails.  Note that `[^"\']` accepts newlines and that the
closing quote need not be the same kind as the opening one, exactly as in
the Python pattern. -/
def matchAssign (key : String) (cs : List Char) : Option String :=
  match dropLit key.toList cs with
  | none => none
  | some r1 =>
    match r1.dropWhile isPySpace with
    | '=' :: r2 =>
      match r2.dropWhile isPySpace with
      | q :: r3 =>
        if isQuote q then
          let tk := r3.takeWhile fun c => !isQuote c
          let rest := r3.dropWhile fun c => !isQuote c
          if tk.isEmpty then none
          else if rest.isEmpty then none else some (String.mk tk)
        else none
      | [] => none
    | _ => none

/-- Matcher for `["\']?([^"\'\s]+)` at the current position.  If the optional
quote is present but no capturable character follows it, declining the quote
cannot help (the position then starts with a quote, which `[^"\'\s]+`
rejects), so committing to the quote is faithful. -/
def captureBare (cs : List Char) : Option String :=
  match cs with
  | [] => none
  | q :: rest =>
    if isQuote q then
      let tk := rest.takeWhile fun c => !(isQuote c || isPySpace c)
      if tk.isEmpty then none else some (String.mk tk)
    else
      let tk := (q :: rest).takeWhile fun c => !(isQuote c || isPySpace c)
      if tk.isEmpty then none else some (String.mk tk)

/-- Matcher for `ARG\s+VERSION\s*=\s*["\']?([^"\'\s]+)`. -/
def matchDockerArg (cs : List Char) : Option String :=
  match dropLit "ARG".toList cs with
  | none => none
  | some r1 =>
    if (r1.takeWhile isPySpace).isEmpty then none
    else
      match dropLit "VERSION".toList (r1.dropWhile isPySpace) with
      | none => none
      | some r2 =>
        match r2.dropWhile isPySpace with
        | '=' :: r3 => captureBare (r3.dropWhile isPySpace)
        | _ => none

/-- Matcher for `VERSION:\s*["\']?([^"\'\s]+)`. -/
def matchWorkflowVersion (cs : List Char) : Option String :=
  match dropLit "VERSION:".toList cs with
  | none => none
  | some r1 => captureBare (r1.dropWhile isPySpace)

/-- The five fixed files the script reads; `none` means the file is absent
(`Path.exists` is false).  Fields appear in the order the script consults
the files. -/
structure FS where
  initFile : Option String
  pyprojectFile : Option String
  setupFile : Option String
  dockerFile : Option String
  workflowFile : Option String

/-- `extract_version_from_init`: reads `ai_data_collector/__init__.py` and
searches for `^__version__\s*=\s*["\']([^"\']+)["\']` under `re.MULTILINE`.
Returns the result together with the diagnostic lines it prints. -/
def extract_version_from_init (fs : FS) : Option String × List String :=
  match fs.initFile with
  | none => (none, ["❌ ai_data_collector/__init__.py not found"])
  | some content =>
    match searchML (matchAssign "__version__") true content.toList with
    | some v => (some v, [])
    | none => (none, ["❌ No __version__ found in ai_data_collector/__init__.py"])

/-- `extract_version_from_pyproject`: reads `pyproject.toml` and searches for
`^version\s*=\s*["\']([^"\']+)["\']` under `re.MULTILINE`. -/
def extract_version_from_pyproject (fs : FS) : Option String × List String :=
  match fs.pyprojectFile with
  | none => (none, ["❌ pyproject.toml not found"])
  | some content =>
    match searchML (matchAssign "version") true content.toList with
    | some v => (some v, [])
    | none => (none, ["❌ No version found in pyproject.toml"])

/-- `extract_version_from_setup`: `setup.py` is optional (silently absent).
If present, searches anywhere for `version\s*=\s*["\']([^"\']+)["\']`; when
that fails but the text contains `find_version()`, delegates to
`extract_version_from_init` (re-printing the latter's diagnostics). -/
def extract_version_from_setup (fs : FS) : Option String × List String :=
  match fs.setupFile with
  | none => (none, [])
  | some content =>
    match searchAnywhere (matchAssign "version") content.toList with
    | some v => (some v, [])
    | none =>
      if containsStr "find_version()" content then extract_version_from_init fs
      else (none, [])

/-- `extract_version_from_dockerfile`: `docker/Dockerfile` is optional;
searches anywhere for `ARG\s+VERSION\s*=\s*["\']?([^"\'\s]+)`.  Never
prints. -/
def extract_version_from_dockerfile (fs : FS) : Option String × List String :=
  match fs.dockerFile with
  | none => (none, [])
  | some content =>
    match searchAnywhere matchDockerArg content.toList with
    | some v => (some v, [])
    | none => (none, [])

/-- `extract_version_from_github_workflow`: `.github/workflows/ci.yml` is
optional; searches anywhere for `VERSION:\s*["\']?([^"\'\s]+)`.  Never
prints. -/
def extract_version_from_github_workflow (fs : FS) : Option String × List String :=
  match fs.workflowFile with
  | none => (none, [])
  | some content =>
    match searchAnywhere matchWorkflowVersion content.toList with
    | some v => (some v, [])
    | none => (none, [])

/-- `l.splitOn '.'` with every dot-separated segment a nonempty run of
identifier characters: exactly the sub-language `[a-zA-Z0-9-]+
(\.[a-zA-Z0-9-]+)*` of the semver regex, checked against the whole list. -/
def checkIds (l : List Char) : Bool :=
  (l.splitOn '.').all fun seg => !seg.isEmpty && seg.all isIdentChar

/-- The optional build-metadata group `(\+ids)?` checked against the whole
remaining list. -/
def checkBuild : List Char → Bool
  | [] => true
  | c :: rest => if c = '+' then checkIds rest else false

/-- The optional suffix groups `(-ids)?(\+ids)?` of the anchored semver
regex, checked against the whole remaining list.  Identifier characters and
`.` never include `+`, so in any anchored match the pre-release part extends
exactly to the first `+` (or to the anchor); splitting at the first `+` is
therefore faithful. -/
def checkSuffixes : List Char → Bool
  | [] => true
  | c :: rest =>
    if c = '-' then
      checkIds (rest.takeWhile fun d => !(d = '+')) &&
        checkBuild (rest.dropWhile fun d => !(d = '+'))
    else if c = '+' then checkIds rest
    else false

/-- Consume one numeric component `\d+` followed by a literal `.`. -/
def numDot (cs : List Char) : Option (List Char) :=
  if (cs.takeWhile Char.isDigit).isEmpty then none
  else
    match cs.dropWhile Char.isDigit with
    | [] => none
    | c :: r => if c = '.' then some r else none

/-- Consume the final numeric component `\d+`, returning the rest. -/
def numOnly (cs : List Char) : Option (List Char) :=
  if (cs.takeWhile Char.isDigit).isEmpty then none
  else some (cs.dropWhile Char.isDigit)

/-- The body of the semver regex
`\d+\.\d+\.\d+(?:-ids)?(?:\+ids)?` matched against the whole list (the
pattern in the script is anchored on both sides). -/
def semver_core (cs : List Char) : Bool :=
  match numDot cs with
  | none => false
  | some r2 =>
    match numDot r2 with
    | none => false
    | some r4 =>
      match numOnly r4 with
      | none => false
      | some r5 => checkSuffixes r5

/-- `validate_version_format`: `re.match` of the anchored semver pattern.
Python `$` (without `re.MULTILINE`) matches at the end of the string and
also just before one final newline, so the anchored pattern also accepts a
well-formed version followed by a single trailing `'\n'`. -/
def validate_version_format (version : String) : Bool :=
  let cs := version.toList
  semver_core cs ||
    (match cs.getLast? with
     | some c => if c = '\n' then semver_core cs.dropLast else false
     | none => false)

/-- The verdict part of `main` (everything after the extractor calls), as a
function of the found `(file, version)` pairs in dict order: the exit code
together with the lines it prints. -/
def verdict (found : List (String × String)) : Nat × List String :=
  if found.isEmpty then
    (1, ["❌ No version information found in any file"])
  else
    let uniq := (found.map Prod.snd).dedup
    if 1 < uniq.length then
      (1, "❌ Version mismatch detected:" ::
            found.map (fun p => "   " ++ (p.1 ++ (": " ++ p.2))) ++
            ["\n💡 Please ensure all version numbers are consistent"])
    else
      let common := uniq.headI
      if validate_version_format common then
        let missing := ["__init__.py", "pyproject.toml"].filter
            fun f => !((found.map Prod.fst).contains f)
        if missing.isEmpty then
          (0, ["✅ All versions are consistent: " ++ common,
               "📁 Found in: " ++ String.intercalate ", " (found.map Prod.fst)])
        else
          (1, ["❌ Version missing from required files: " ++
                 String.intercalate ", " missing])
      else
        (1, ["❌ Invalid version format: " ++ common,
             "💡 Version should follow semantic versioning (e.g., 1.0.0, 1.0.0-alpha.1)"])

/-- The `versions` dict of `main` (in insertion order) together with all
diagnostic lines printed while it is built. -/
def version_entries (fs : FS) : List (String × Option String) × List String :=
  let i := extract_version_from_init fs
  let p := extract_version_from_pyproject fs
  let s := extract_version_from_setup fs
  let d := extract_version_from_dockerfile fs
  let g := extract_version_from_github_workflow fs
  ([("__init__.py", i.1), ("pyproject.toml", p.1), ("setup.py", s.1),
    ("Dockerfile", d.1), ("GitHub workflow", g.1)],
   i.2 ++ (p.2 ++ (s.2 ++ (d.2 ++ g.2))))

/-- `found_versions`: the entries whose extraction result is present, in
dict order. -/
def found_list (fs : FS) : List (String × String) :=
  (version_entries fs).1.filterMap fun p => p.2.map fun v => (p.1, v)

/-- `main`: the exit code and the full list of printed lines of one run. -/
def main (fs : FS) : Nat × List String :=
  ((verdict (found_list fs)).1,
   "🔍 Checking version consistency across project files..." ::
     ((version_entries fs).2 ++ (verdict (found_list fs)).2))

/-! ### Read failures

The script calls `Path.read_text` with no `try`/`except` anywhere, so an
I/O error raised while reading an existing file (permission denial,
decoding error) escapes `extract_version_from_*`, escapes `main`, and
aborts the process abnormally.  To make that observable we re-run the same
embedding over a filesystem whose files can be existing-but-unreadable;
`Except.error ()` models an exception propagating out of the function. -/

/-- A file as an extractor sees it: missing, readable with the given text,
or existing but raising on `read_text`. -/
inductive FileState where
  | absent
  | readable (content : String)
  | unreadable
deriving DecidableEq

/-- The five fixed files, with possible read failures. -/
structure FSIO where
  initFile : FileState
  pyprojectFile : FileState
  setupFile : FileState
  dockerFile : FileState
  workflowFile : FileState

/-- `extract_version_from_init` over `FSIO`. -/
def extract_version_from_init_io (fs : FSIO) : Except Unit (Option String × List String) :=
  match fs.initFile with
  | .absent => .ok (none, ["❌ ai_data_collector/__init__.py not found"])
  | .unreadable => .error ()
  | .readable content =>
    .ok (match searchML (matchAssign "__version__") true content.toList with
         | some v => (some v, [])
         | none => (none, ["❌ No __version__ found in ai_data_collector/__init__.py"]))

/-- `extract_version_from_pyproject` over `FSIO`. -/
def extract_version_from_pyproject_io (fs : FSIO) : Except Unit (Option String × List String) :=
  match fs.pyprojectFile with
  | .absent => .ok (none, ["❌ pyproject.toml not found"])
  | .unreadable => .error ()
  | .readable content =>
    .ok (match searchML (matchAssign "version") true content.toList with
         | some v => (some v, [])
         | none => (none, ["❌ No version found in pyproject.toml"]))

/-- `extract_version_from_setup` over `FSIO`. -/
def extract_version_from_setup_io (fs : FSIO) : Except Unit (Option String × List String) :=
  match fs.setupFile with
  | .absent => .ok (none, [])
  | .unreadable => .error ()
  | .readable content =>
    match searchAnywhere (matchAssign "version") content.toList with
    | some v => .ok (some v, [])
    | none =>
      if containsStr "find_version()" content then extract_version_from_init_io fs
      else .ok (none, [])

/-- `extract_version_from_dockerfile` over `FSIO`. -/
def extract_version_from_dockerfile_io (fs : FSIO) : Except Unit (Option String × List String) :=
  match fs.dockerFile with
  | .absent => .ok (none, [])
  | .unreadable => .error ()
  | .readable content =>
    .ok (match searchAnywhere matchDockerArg content.toList with
         | some v => (some v, [])
         | none => (none, []))

/-- `extract_version_from_github_workflow` over `FSIO`. -/
def extract_version_from_github_workflow_io (fs : FSIO) : Except Unit (Option String × List String) :=
  match fs.workflowFile with
  | .absent => .ok (none, [])
  | .unreadable => .error ()
  | .readable content =>
    .ok (match searchAnywhere matchWorkflowVersion content.toList with
         | some v => (some v, [])
         | none => (none, []))

/-- `main` over `FSIO`: an uncaught exception in any extractor propagates
(`Except.error ()`), otherwise the run proceeds exactly as `main`. -/
def main_io (fs : FSIO) : Except Unit (Nat × List String) :=
  match extract_version_from_init_io fs with
  | .error e => .error e
  | .ok i =>
    match extract_version_from_pyproject_io fs with
    | .error e => .error e
    | .ok p =>
      match extract_version_from_setup_io fs with
      | .error e => .error e
      | .ok s =>
        match extract_version_from_dockerfile_io fs with
        | .error e => .error e
        | .ok d =>
          match extract_version_from_github_workflow_io fs with
          | .error e => .error e
          | .ok g =>
            let entries : List (String × Option String) :=
              [("__init__.py", i.1), ("pyproject.toml", p.1), ("setup.py", s.1),
               ("Dockerfile", d.1), ("GitHub workflow", g.1)]
            let found := entries.filterMap fun q => q.2.map fun v => (q.1, v)
            .ok ((verdict found).1,
              "🔍 Checking version consistency across project files..." ::
                ((i.2 ++ (p.2 ++ (s.2 ++ (d.2 ++ g.2)))) ++ (verdict found).2))

/-! ### Spec-side definitions

These follow the words of the specification (not the code) and are used
to state refinement-style claims about the validator and the exit code. -/

/-- Spec side: a version component, one or more decimal digits. -/
def IsNumL (l : List Char) : Prop := l ≠ [] ∧ ∀ c ∈ l, c.isDigit = true

/-- Spec side: a nonempty alphanumeric-or-hyphen identifier. -/
def IsIdentL (l : List Char) : Prop := l ≠ [] ∧ ∀ c ∈ l, isIdentChar c = true

/-- Spec side: an optional suffix of the version: empty, or the marker
(`-` or `+`) followed by one or more dot-separated identifiers. -/
def IsOptSuffix (mark : Char) (l : List Char) : Prop :=
  l = [] ∨ ∃ ids, ids ≠ [] ∧ (∀ i ∈ ids, IsIdentL i) ∧ l = mark :: ['.'].intercalate ids

/-- Modelled from the spec (§4.2): the semantic-versioning grammar with the
match spanning the entire character list: `MAJOR.MINOR.PATCH` followed by an
optional `-` pre-release suffix and an optional `+` build-metadata suffix,
nothing else before or after. -/
def SemverSpecL (l : List Char) : Prop :=
  ∃ a b c pre build, IsNumL a ∧ IsNumL b ∧ IsNumL c ∧
    IsOptSuffix '-' pre ∧ IsOptSuffix '+' build ∧
    l = a ++ '.' :: (b ++ '.' :: (c ++ (pre ++ build)))

/-- The success condition as the spec words it: at least one found value,
unanimity, valid format, and both mandatory artifacts contributing. -/
def all_checks_pass (fs : FS) : Bool :=
  let found := found_list fs
  !found.isEmpty &&
    ((found.map Prod.snd).dedup.length == 1) &&
    validate_version_format ((found.map Prod.snd).dedup.headI) &&
    (found.map Prod.fst).contains "__init__.py" &&
    (found.map Prod.fst).contains "pyproject.toml"

/-! ### Generic helper lemmas -/

/-- The head of the list, if any, falsifies `p`. -/
def headFails {α : Type} (p : α → Bool) : List α → Prop
  | [] => True
  | c :: _ => p c = false

theorem takeWhile_append_eq {α : Type} (p : α → Bool) (a b : List α)
    (ha : ∀ x ∈ a, p x = true) (hb : headFails p b) :
    (a ++ b).takeWhile p = a := by
  induction a with
  | nil =>
    cases b with
    | nil => rfl
    | cons c cs =>
      simp only [headFails] at hb
      simp [List.takeWhile_cons, hb]
  | cons x xs ih =>
    have hx : p x = true := ha x (by simp)
    simp [List.takeWhile_cons, hx, ih (fun y hy => ha y (by simp [hy]))]

theorem dropWhile_append_eq {α : Type} (p : α → Bool) (a b : List α)
    (ha : ∀ x ∈ a, p x = true) (hb : headFails p b) :
    (a ++ b).dropWhile p = b := by
  induction a with
  | nil =>
    cases b with
    | nil => rfl
    | cons c cs =>
      simp only [headFails] at hb
      simp [List.dropWhile_cons, hb]
  | cons x xs ih =>
    have hx : p x = true := ha x (by simp)
    simp [List.dropWhile_cons, hx, ih (fun y hy => ha y (by simp [hy]))]

theorem dropWhile_head_false {α : Type} (p : α → Bool) (l : List α) (c : α) (r : List α)
    (h : l.dropWhile p = c :: r) : p c = false := by
  induction l with
  | nil => simp at h
  | cons x xs ih =>
    by_cases hx : p x = true
    · rw [List.dropWhile_cons, if_pos hx] at h
      exact ih h
    · rw [List.dropWhile_cons, if_neg hx] at h
      cases h
      exact Bool.eq_false_iff.mpr hx

theorem isPrefixOf_append_self (a t : List Char) : a.isPrefixOf (a ++ t) = true := by
  induction a with
  | nil => simp [List.isPrefixOf]
  | cons c cs ih => simp [List.isPrefixOf, ih]

/-- A string is never a concrete string it does not start with, whatever is
appended to the latter. -/
theorem ne_append_of_notPrefixOf (a b : String)
    (h : b.toList.isPrefixOf a.toList = false) (m : String) : a ≠ b ++ m := by
  intro e
  have e2 : a.toList = b.toList ++ m.toList := by
    have := congrArg String.data e
    simpa [String.data_append] using this
  rw [e2, isPrefixOf_append_self] at h
  exact Bool.true_eq_false ▸ h

/-- Two appends with nonempty left parts whose first characters differ are
distinct strings. -/
theorem ne_append_append (a b : String) (ha : a.toList ≠ []) (hb : b.toList ≠ [])
    (h : a.toList.headI ≠ b.toList.headI) (x m : String) : a ++ x ≠ b ++ m := by
  intro e
  have e2 : a.toList ++ x.toList = b.toList ++ m.toList := by
    have := congrArg String.data e
    simpa [String.data_append] using this
  obtain ⟨c, t, hct⟩ : ∃ c t, a.toList = c :: t := by
    cases hA : a.toList with
    | nil => exact absurd hA ha
    | cons c t => exact ⟨c, t, rfl⟩
  obtain ⟨d, u, hdu⟩ : ∃ d u, b.toList = d :: u := by
    cases hB : b.toList with
    | nil => exact absurd hB hb
    | cons d u => exact ⟨d, u, rfl⟩
  rw [hct, hdu] at e2 h
  simp only [List.cons_append, List.cons.injEq] at e2
  simp only [List.headI] at h
  exact h e2.1

/-! ### Branch lemmas for the verdict -/

theorem verdict_empty : verdict [] = (1, ["❌ No version information found in any file"]) := rfl

theorem verdict_mismatch (found : List (String × String))
    (h : 1 < ((found.map Prod.snd).dedup).length) :
    verdict found =
      (1, "❌ Version mismatch detected:" ::
            found.map (fun p => "   " ++ (p.1 ++ (": " ++ p.2))) ++
            ["\n💡 Please ensure all version numbers are consistent"]) := by
  have hne : found ≠ [] := by
    intro e; subst e; simp at h
  have hie : found.isEmpty = false := by simpa [List.isEmpty_iff] using hne
  simp only [verdict, hie, Bool.false_eq_true, if_false, if_pos h]

theorem verdict_invalid (found : List (String × String)) (v : String)
    (h : (found.map Prod.snd).dedup = [v])
    (hv : validate_version_format v = false) :
    verdict found =
      (1, ["❌ Invalid version format: " ++ v,
           "💡 Version should follow semantic versioning (e.g., 1.0.0, 1.0.0-alpha.1)"]) := by
  have hne : found ≠ [] := by
    intro e; subst e; simp at h
  have hie : found.isEmpty = false := by simpa [List.isEmpty_iff] using hne
  simp only [verdict]
  rw [hie, if_neg Bool.false_ne_true, h, if_neg (by simp)]
  simp only [List.headI]
  rw [hv, if_neg Bool.false_ne_true]

theorem verdict_missing (found : List (String × String)) (v : String)
    (h : (found.map Prod.snd).dedup = [v])
    (hv : validate_version_format v = true)
    (hm : (["__init__.py", "pyproject.toml"].filter
            fun f => !((found.map Prod.fst).contains f)).isEmpty = false) :
    verdict found =
      (1, ["❌ Version missing from required files: " ++
             String.intercalate ", " (["__init__.py", "pyproject.toml"].filter
               fun f => !((found.map Prod.fst).contains f))]) := by
  have hne : found ≠ [] := by
    intro e; subst e; simp at h
  have hie : found.isEmpty = false := by simpa [List.isEmpty_iff] using hne
  simp only [verdict]
  rw [hie, if_neg Bool.false_ne_true, h, if_neg (by simp)]
  simp only [List.headI]
  rw [hv, if_pos rfl, hm, if_neg Bool.false_ne_true]

theorem verdict_success (found : List (String × String)) (v : String)
    (h : (found.map Prod.snd).dedup = [v])
    (hv : validate_version_format v = true)
    (hi : (found.map Prod.fst).contains "__init__.py" = true)
    (hp : (found.map Prod.fst).contains "pyproject.toml" = true) :
    verdict found =
      (0, ["✅ All versions are consistent: " ++ v,
           "📁 Found in: " ++ String.intercalate ", " (found.map Prod.fst)]) := by
  have hne : found ≠ [] := by
    intro e; subst e; simp at h
  have hie : found.isEmpty = false := by simpa [List.isEmpty_iff] using hne
  have hmiss : (["__init__.py", "pyproject.toml"].filter
      fun f => !((found.map Prod.fst).contains f)) = [] := by
    simp only [List.filter_cons, List.filter_nil, hi, hp]
    simp
  simp only [verdict]
  rw [hie, if_neg Bool.false_ne_true, h, if_neg (by simp)]
  simp only [List.headI]
  rw [hv, if_pos rfl, hmiss]
  rfl

/-! ### Diagnostic bookkeeping -/

theorem init_diags (fs : FS) :
    ∀ l ∈ (extract_version_from_init fs).2,
      l = "❌ ai_data_collector/__init__.py not found" ∨
      l = "❌ No __version__ found in ai_data_collector/__init__.py" := by
  unfold extract_version_from_init
  cases fs.initFile with
  | none => simp
  | some content =>
    cases h : searchML (matchAssign "__version__") true content.data <;> simp [h]

theorem pyproject_diags (fs : FS) :
    ∀ l ∈ (extract_version_from_pyproject fs).2,
      l = "❌ pyproject.toml not found" ∨
      l = "❌ No version found in pyproject.toml" := by
  unfold extract_version_from_pyproject
  cases fs.pyprojectFile with
  | none => simp
  | some content =>
    cases h : searchML (matchAssign "version") true content.data <;> simp [h]

theorem setup_diags (fs : FS) :
    (extract_version_from_setup fs).2 = [] ∨
    (extract_version_from_setup fs).2 = (extract_version_from_init fs).2 := by
  unfold extract_version_from_setup
  cases hs : fs.setupFile with
  | none => simp
  | some content =>
    cases h : searchAnywhere (matchAssign "version") content.data with
    | some v => simp [h]
    | none =>
      by_cases hc : containsStr "find_version()" content = true
      · simp [h, hc]
      · simp [h, Bool.eq_false_iff.mpr hc]

theorem dockerfile_diags (fs : FS) : (extract_version_from_dockerfile fs).2 = [] := by
  unfold extract_version_from_dockerfile
  cases fs.dockerFile with
  | none => rfl
  | some content => cases h : searchAnywhere matchDockerArg content.data <;> simp [h]

theorem workflow_diags (fs : FS) : (extract_version_from_github_workflow fs).2 = [] := by
  unfold extract_version_from_github_workflow
  cases fs.workflowFile with
  | none => rfl
  | some content => cases h : searchAnywhere matchWorkflowVersion content.data <;> simp [h]

/-- Every diagnostic printed during extraction is one of the four fixed
messages of the two mandatory extractors. -/
theorem version_entries_diags (fs : FS) :
    ∀ l ∈ (version_entries fs).2,
      l = "❌ ai_data_collector/__init__.py not found" ∨
      l = "❌ No __version__ found in ai_data_collector/__init__.py" ∨
      l = "❌ pyproject.toml not found" ∨
      l = "❌ No version found in pyproject.toml" := by
  intro l hl
  simp only [version_entries, List.mem_append] at hl
  rcases hl with h | h | h | h | h
  · rcases init_diags fs l h with h1 | h1
    · exact Or.inl h1
    · exact Or.inr (Or.inl h1)
  · rcases pyproject_diags fs l h with h1 | h1
    · exact Or.inr (Or.inr (Or.inl h1))
    · exact Or.inr (Or.inr (Or.inr h1))
  · rcases setup_diags fs with h1 | h1
    · rw [h1] at h; simp at h
    · rw [h1] at h
      rcases init_diags fs l h with h2 | h2
      · exact Or.inl h2
      · exact Or.inr (Or.inl h2)
  · rw [dockerfile_diags fs] at h; simp at h
  · rw [workflow_diags fs] at h; simp at h

/-- The verdict lines never include the missing-`__init__.py` diagnostic. -/
theorem initMsg_not_in_verdict (found : List (String × String)) :
    "❌ ai_data_collector/__init__.py not found" ∉ (verdict found).2 := by
  unfold verdict
  by_cases he : found.isEmpty = true
  · rw [if_pos he]
    decide
  · rw [if_neg he]
    by_cases h1 : 1 < ((found.map Prod.snd).dedup).length
    · rw [if_pos h1]
      intro hmem
      rcases List.mem_cons.mp hmem with h | h
      · exact absurd h (by decide)
      rcases List.mem_append.mp h with h | h
      · rcases List.mem_map.mp h with ⟨p, _, hp⟩
        exact ne_append_of_notPrefixOf _ "   " (by decide) _ hp.symm
      · exact absurd h (by decide)
    · rw [if_neg h1]
      by_cases hv : validate_version_format ((found.map Prod.snd).dedup.headI) = true
      · rw [if_pos hv]
        by_cases hm : (["__init__.py", "pyproject.toml"].filter
            fun f => !((found.map Prod.fst).contains f)).isEmpty = true
        · rw [if_pos hm]
          intro hmem
          rcases List.mem_cons.mp hmem with h | h
          · exact ne_append_of_notPrefixOf _ "✅ All versions are consistent: " (by decide) _ h
          rcases List.mem_singleton.mp h with h
          exact ne_append_of_notPrefixOf _ "📁 Found in: " (by decide) _ h
        · rw [if_neg hm]
          intro hmem
          rcases List.mem_singleton.mp hmem with h
          exact ne_append_of_notPrefixOf _ "❌ Version missing from required files: "
            (by decide) _ h
      · rw [if_neg hv]
        intro hmem
        rcases List.mem_cons.mp hmem with h | h
        · exact ne_append_of_notPrefixOf _ "❌ Invalid version format: " (by decide) _ h
        · exact absurd h (by decide)

theorem main_eq (fs : FS) :
    main fs = ((verdict (found_list fs)).1,
      "🔍 Checking version consistency across project files..." ::
        ((version_entries fs).2 ++ (verdict (found_list fs)).2)) := rfl

/-! ### Claims -/

/-- C1: whenever the found extractor results contain more than one distinct
version value, the run exits with code 1 and the output lists every
contributing (artifact, value) pair. -/
theorem claim_C1_mismatch_lists_all (fs : FS)
    (h : 1 < ((found_list fs).map Prod.snd).dedup.length) :
    (main fs).1 = 1 ∧
      ∀ p ∈ found_list fs, ("   " ++ (p.1 ++ (": " ++ p.2))) ∈ (main fs).2 := by
  rw [main_eq fs, verdict_mismatch _ h]
  refine ⟨rfl, ?_⟩
  intro p hp
  exact List.mem_cons.2 (Or.inr (List.mem_append.2 (Or.inr (List.mem_cons.2
    (Or.inr (List.mem_append.2 (Or.inl (List.mem_map.2 ⟨p, hp, rfl⟩))))))))

/-- Witness for C1: `__init__.py` says 1.0.0 and `pyproject.toml` says
2.0.0, so the run fails and both pairs are listed. -/
theorem claim_C1_witness :
    (1 < ((found_list ⟨some "__version__ = \"1.0.0\"\n", some "version = \"2.0.0\"\n",
        none, none, none⟩).map Prod.snd).dedup.length) ∧
    ((main ⟨some "__version__ = \"1.0.0\"\n", some "version = \"2.0.0\"\n",
        none, none, none⟩).1 = 1 ∧
      ∀ p ∈ found_list ⟨some "__version__ = \"1.0.0\"\n", some "version = \"2.0.0\"\n",
          none, none, none⟩,
        ("   " ++ (p.1 ++ (": " ++ p.2))) ∈ (main ⟨some "__version__ = \"1.0.0\"\n",
          some "version = \"2.0.0\"\n", none, none, none⟩).2) :=
  ⟨by decide, claim_C1_mismatch_lists_all _ (by decide)⟩

/-- C2: a unanimous single found value that fails the Format Validator makes
the run exit 1, with the invalid-format diagnostic, however many artifacts
agreed on it. -/
theorem claim_C2_invalid_format_fails (fs : FS) (v : String)
    (h : ((found_list fs).map Prod.snd).dedup = [v])
    (hv : validate_version_format v = false) :
    (main fs).1 = 1 ∧ ("❌ Invalid version format: " ++ v) ∈ (main fs).2 := by
  rw [main_eq fs, verdict_invalid _ v h hv]
  exact ⟨rfl, List.mem_cons.2 (Or.inr (List.mem_append.2 (Or.inr (by simp))))⟩

/-- Witness for C2: both mandatory files agree on `1.0`, which is not
`MAJOR.MINOR.PATCH`, so the run fails. -/
theorem claim_C2_witness :
    (((found_list ⟨some "__version__ = \"1.0\"\n", some "version = \"1.0\"\n",
        none, none, none⟩).map Prod.snd).dedup = ["1.0"]) ∧
    (validate_version_format "1.0" = false) ∧
    ((main ⟨some "__version__ = \"1.0\"\n", some "version = \"1.0\"\n",
        none, none, none⟩).1 = 1 ∧
      ("❌ Invalid version format: " ++ "1.0") ∈
        (main ⟨some "__version__ = \"1.0\"\n", some "version = \"1.0\"\n",
          none, none, none⟩).2) :=
  ⟨by decide, by decide, claim_C2_invalid_format_fails _ "1.0" (by decide) (by decide)⟩

/-- C4: a unanimous, well-formed value still fails the run when a mandatory
artifact contributed nothing, and the failure line names the missing
mandatory artifact(s). -/
theorem claim_C4_missing_mandatory_fails (fs : FS) (v : String)
    (h : ((found_list fs).map Prod.snd).dedup = [v])
    (hv : validate_version_format v = true)
    (hm : ((found_list fs).map Prod.fst).contains "__init__.py" = false ∨
          ((found_list fs).map Prod.fst).contains "pyproject.toml" = false) :
    (main fs).1 = 1 ∧
      ("❌ Version missing from required files: " ++
        String.intercalate ", " (["__init__.py", "pyproject.toml"].filter
          fun f => !(((found_list fs).map Prod.fst).contains f))) ∈ (main fs).2 := by
  have hmem : ∃ x, x ∈ ["__init__.py", "pyproject.toml"].filter
      fun f => !(((found_list fs).map Prod.fst).contains f) := by
    rcases hm with hm | hm
    · exact ⟨"__init__.py", List.mem_filter.2 ⟨by simp, by rw [hm]; rfl⟩⟩
    · exact ⟨"pyproject.toml", List.mem_filter.2 ⟨by simp, by rw [hm]; rfl⟩⟩
  have hm2 : (["__init__.py", "pyproject.toml"].filter
      fun f => !(((found_list fs).map Prod.fst).contains f)).isEmpty = false := by
    rcases hmem with ⟨x, hx⟩
    apply Bool.eq_false_iff.mpr
    intro he
    rw [List.isEmpty_iff.mp he] at hx
    simp at hx
  rw [main_eq fs, verdict_missing _ v h hv hm2]
  exact ⟨rfl, List.mem_cons.2 (Or.inr (List.mem_append.2 (Or.inr (by simp))))⟩

/-- Witness for C4: only `pyproject.toml` exists, carrying the valid value
1.0.0; the run fails naming `__init__.py`. -/
theorem claim_C4_witness :
    (((found_list ⟨none, some "version = \"1.0.0\"\n", none, none, none⟩).map
        Prod.snd).dedup = ["1.0.0"]) ∧
    (validate_version_format "1.0.0" = true) ∧
    (((found_list ⟨none, some "version = \"1.0.0\"\n", none, none, none⟩).map
        Prod.fst).contains "__init__.py" = false) ∧
    ((main ⟨none, some "version = \"1.0.0\"\n", none, none, none⟩).1 = 1 ∧
      ("❌ Version missing from required files: " ++
        String.intercalate ", " (["__init__.py", "pyproject.toml"].filter
          fun f => !(((found_list ⟨none, some "version = \"1.0.0\"\n",
            none, none, none⟩).map Prod.fst).contains f))) ∈
        (main ⟨none, some "version = \"1.0.0\"\n", none, none, none⟩).2) :=
  ⟨by decide, by decide, by decide,
    claim_C4_missing_mandatory_fails _ "1.0.0" (by decide) (by decide) (Or.inl (by decide))⟩

theorem version_entries_snd (fs : FS) :
    (version_entries fs).2 =
      (extract_version_from_init fs).2 ++
        ((extract_version_from_pyproject fs).2 ++
          ((extract_version_from_setup fs).2 ++
            ((extract_version_from_dockerfile fs).2 ++
              (extract_version_from_github_workflow fs).2))) := rfl

/-- C5: with disagreeing found values and a missing mandatory artifact at
the same time, the run reports the version mismatch, and no
missing-mandatory-artifact line is printed: consistency is checked first. -/
theorem claim_C5_mismatch_before_mandatory (fs : FS)
    (h : 1 < ((found_list fs).map Prod.snd).dedup.length)
    (_hm : ((found_list fs).map Prod.fst).contains "__init__.py" = false ∨
          ((found_list fs).map Prod.fst).contains "pyproject.toml" = false) :
    (main fs).1 = 1 ∧ "❌ Version mismatch detected:" ∈ (main fs).2 ∧
      ∀ m : String, ("❌ Version missing from required files: " ++ m) ∉ (main fs).2 := by
  rw [main_eq fs, verdict_mismatch _ h]
  refine ⟨rfl, List.mem_cons.2 (Or.inr (List.mem_append.2 (Or.inr (by simp)))), ?_⟩
  intro m hmem
  rcases List.mem_cons.mp hmem with h1 | h1
  · exact ne_append_of_notPrefixOf _ _ (by decide) m h1.symm
  rcases List.mem_append.mp h1 with h1 | h1
  · rcases version_entries_diags fs _ h1 with h2 | h2 | h2 | h2 <;>
      exact ne_append_of_notPrefixOf _ _ (by decide) m h2.symm
  rcases List.mem_cons.mp h1 with h2 | h2
  · exact ne_append_of_notPrefixOf _ _ (by decide) m h2.symm
  rcases List.mem_append.mp h2 with h2 | h2
  · rcases List.mem_map.mp h2 with ⟨p, _, hp⟩
    exact ne_append_append "   " "❌ Version missing from required files: "
      (by decide) (by decide) (by decide) _ m hp
  · rcases List.mem_singleton.mp h2 with h2
    exact ne_append_of_notPrefixOf _ _ (by decide) m h2.symm

/-- Witness for C5: `__init__.py` is missing while `pyproject.toml` and the
Dockerfile disagree; the run reports the mismatch, not the missing file. -/
theorem claim_C5_witness :
    (1 < ((found_list ⟨none, some "version = \"1.0.0\"\n",
        none, some "ARG VERSION=2.0.0\n", none⟩).map Prod.snd).dedup.length) ∧
    (((found_list ⟨none, some "version = \"1.0.0\"\n",
        none, some "ARG VERSION=2.0.0\n", none⟩).map Prod.fst).contains
      "__init__.py" = false) ∧
    ((main ⟨none, some "version = \"1.0.0\"\n",
        none, some "ARG VERSION=2.0.0\n", none⟩).1 = 1 ∧
      "❌ Version mismatch detected:" ∈ (main ⟨none, some "version = \"1.0.0\"\n",
        none, some "ARG VERSION=2.0.0\n", none⟩).2 ∧
      ∀ m : String, ("❌ Version missing from required files: " ++ m) ∉
        (main ⟨none, some "version = \"1.0.0\"\n",
          none, some "ARG VERSION=2.0.0\n", none⟩).2) :=
  ⟨by decide, by decide,
    claim_C5_mismatch_before_mandatory _ (by decide) (Or.inl (by decide))⟩

/-- C6: when the two mandatory extractors agree on a well-formed value and
all three optional files are absent, the run succeeds and prints no
diagnostic at all: exactly the header and the two success lines. -/
theorem claim_C6_optional_absence_silent (fs : FS) (v : String)
    (hi : extract_version_from_init fs = (some v, []))
    (hp : extract_version_from_pyproject fs = (some v, []))
    (hv : validate_version_format v = true)
    (hs : fs.setupFile = none) (hd : fs.dockerFile = none) (hw : fs.workflowFile = none) :
    main fs = (0,
      ["🔍 Checking version consistency across project files...",
       "✅ All versions are consistent: " ++ v,
       "📁 Found in: __init__.py, pyproject.toml"]) := by
  have hsx : extract_version_from_setup fs = (none, []) := by
    unfold extract_version_from_setup; rw [hs]
  have hdx : extract_version_from_dockerfile fs = (none, []) := by
    unfold extract_version_from_dockerfile; rw [hd]
  have hwx : extract_version_from_github_workflow fs = (none, []) := by
    unfold extract_version_from_github_workflow; rw [hw]
  have hve : version_entries fs =
      ([("__init__.py", some v), ("pyproject.toml", some v), ("setup.py", none),
        ("Dockerfile", none), ("GitHub workflow", none)], []) := by
    unfold version_entries
    rw [hi, hp, hsx, hdx, hwx]
    rfl
  have hfl : found_list fs = [("__init__.py", v), ("pyproject.toml", v)] := by
    unfold found_list
    rw [hve]
    rfl
  rw [main_eq fs, hfl, hve]
  rw [verdict_success _ v (by simp) hv (by simp) (by simp)]
  rfl

/-- Witness for C6 at a concrete filesystem with only the two mandatory
files present and agreeing on 1.2.3. -/
theorem claim_C6_witness :
    (extract_version_from_init ⟨some "__version__ = \"1.2.3\"\n",
        some "version = \"1.2.3\"\n", none, none, none⟩ = (some "1.2.3", [])) ∧
    (extract_version_from_pyproject ⟨some "__version__ = \"1.2.3\"\n",
        some "version = \"1.2.3\"\n", none, none, none⟩ = (some "1.2.3", [])) ∧
    (validate_version_format "1.2.3" = true) ∧
    (main ⟨some "__version__ = \"1.2.3\"\n", some "version = \"1.2.3\"\n",
        none, none, none⟩ = (0,
      ["🔍 Checking version consistency across project files...",
       "✅ All versions are consistent: " ++ "1.2.3",
       "📁 Found in: __init__.py, pyproject.toml"])) :=
  ⟨by decide, by decide, by decide,
    claim_C6_optional_absence_silent _ "1.2.3" (by decide) (by decide) (by decide)
      rfl rfl rfl⟩

/-- C10: when `setup.py` exists with no literal version assignment but a
`find_version()` reference while `__init__.py` is absent, the
missing-`__init__.py` diagnostic is printed exactly twice in the run, and
both the PackageInit and SetupScript results are absent. -/
theorem claim_C10_double_diagnostic (fs : FS) (s : String)
    (hifa : fs.initFile = none) (hsf : fs.setupFile = some s)
    (hnv : searchAnywhere (matchAssign "version") s.toList = none)
    (hfv : containsStr "find_version()" s = true) :
    ((main fs).2.count "❌ ai_data_collector/__init__.py not found" = 2) ∧
    (extract_version_from_init fs).1 = none ∧
    (extract_version_from_setup fs).1 = none := by
  have hix : extract_version_from_init fs =
      (none, ["❌ ai_data_collector/__init__.py not found"]) := by
    unfold extract_version_from_init; rw [hifa]
  have hsx : extract_version_from_setup fs =
      (none, ["❌ ai_data_collector/__init__.py not found"]) := by
    have hnv2 : searchAnywhere (matchAssign "version") s.data = none := hnv
    unfold extract_version_from_setup
    rw [hsf]
    simp only [hnv, hnv2, hfv, if_pos, hix]
  have hcp : (extract_version_from_pyproject fs).2.count
      "❌ ai_data_collector/__init__.py not found" = 0 := by
    rw [List.count_eq_zero]
    intro hmem
    rcases pyproject_diags fs _ hmem with h1 | h1
    · exact absurd h1 (by decide)
    · exact absurd h1 (by decide)
  have hcv : (verdict (found_list fs)).2.count
      "❌ ai_data_collector/__init__.py not found" = 0 :=
    List.count_eq_zero.2 (initMsg_not_in_verdict _)
  refine ⟨?_, by rw [hix], by rw [hsx]⟩
  rw [main_eq fs]
  show ("🔍 Checking version consistency across project files..." ::
      ((version_entries fs).2 ++ (verdict (found_list fs)).2)).count
    "❌ ai_data_collector/__init__.py not found" = 2
  rw [version_entries_snd fs, hix, hsx, dockerfile_diags fs, workflow_diags fs]
  simp [List.count_append, List.count_cons, hcp, hcv]

/-- Witness for C10 at a concrete filesystem: `setup.py` resolves its
version through `find_version()` and `__init__.py` is missing. -/
theorem claim_C10_witness :
    ((⟨none, some "version = \"1.0.0\"\n",
        some "from helpers import find_version\nsetup(version=find_version())\n",
        none, none⟩ : FS).initFile = none) ∧
    ((⟨none, some "version = \"1.0.0\"\n",
        some "from helpers import find_version\nsetup(version=find_version())\n",
        none, none⟩ : FS).setupFile =
      some "from helpers import find_version\nsetup(version=find_version())\n") ∧
    (searchAnywhere (matchAssign "version")
      "from helpers import find_version\nsetup(version=find_version())\n".toList = none) ∧
    (containsStr "find_version()"
      "from helpers import find_version\nsetup(version=find_version())\n" = true) ∧
    (((main ⟨none, some "version = \"1.0.0\"\n",
        some "from helpers import find_version\nsetup(version=find_version())\n",
        none, none⟩).2.count "❌ ai_data_collector/__init__.py not found" = 2) ∧
      (extract_version_from_init ⟨none, some "version = \"1.0.0\"\n",
        some "from helpers import find_version\nsetup(version=find_version())\n",
        none, none⟩).1 = none ∧
      (extract_version_from_setup ⟨none, some "version = \"1.0.0\"\n",
        some "from helpers import find_version\nsetup(version=find_version())\n",
        none, none⟩).1 = none) :=
  ⟨rfl, rfl, by decide, by decide,
    claim_C10_double_diagnostic _ _ rfl rfl (by decide) (by decide)⟩

theorem missing_isEmpty_iff (keys : List String) :
    ((["__init__.py", "pyproject.toml"].filter fun f => !(keys.contains f)).isEmpty = true)
      ↔ (keys.contains "__init__.py" = true ∧ keys.contains "pyproject.toml" = true) := by
  rw [List.filter_cons, List.filter_cons, List.filter_nil]
  cases h1 : keys.contains "__init__.py" <;> cases h2 : keys.contains "pyproject.toml" <;>
    simp

/-- The exit code of the verdict, as one boolean condition. -/
theorem verdict_exit (found : List (String × String)) :
    (verdict found).1 =
      if (!found.isEmpty &&
          ((found.map Prod.snd).dedup.length == 1) &&
          validate_version_format ((found.map Prod.snd).dedup.headI) &&
          (found.map Prod.fst).contains "__init__.py" &&
          (found.map Prod.fst).contains "pyproject.toml") then 0 else 1 := by
  by_cases he : found.isEmpty = true
  · unfold verdict
    rw [if_pos he, he]
    rfl
  · have he2 : found.isEmpty = false := Bool.eq_false_iff.mpr he
    unfold verdict
    rw [if_neg he, he2]
    by_cases h1 : 1 < ((found.map Prod.snd).dedup).length
    · rw [if_pos h1]
      have hbe : ((found.map Prod.snd).dedup.length == 1) = false := by
        apply beq_eq_false_iff_ne.mpr
        omega
      rw [hbe]
      rfl
    · rw [if_neg h1]
      have hne : (found.map Prod.snd).dedup ≠ [] := by
        intro e
        have hmapnil : found.map Prod.snd = [] := (List.dedup_eq_nil _).mp e
        rw [List.map_eq_nil_iff] at hmapnil
        rw [hmapnil] at he2
        simp at he2
      have hlen : ((found.map Prod.snd).dedup).length = 1 := by
        have hpos : 0 < ((found.map Prod.snd).dedup).length := List.length_pos.mpr hne
        omega
      rw [hlen]
      by_cases hv : validate_version_format ((found.map Prod.snd).dedup.headI) = true
      · rw [if_pos hv, hv]
        by_cases hm : (["__init__.py", "pyproject.toml"].filter
            fun f => !((found.map Prod.fst).contains f)).isEmpty = true
        · rw [if_pos hm]
          obtain ⟨hi, hp⟩ := (missing_isEmpty_iff (found.map Prod.fst)).mp hm
          rw [hi, hp]
          rfl
        · rw [if_neg hm]
          cases hc4 : (found.map Prod.fst).contains "__init__.py" <;>
            cases hc5 : (found.map Prod.fst).contains "pyproject.toml"
          · rfl
          · rfl
          · rfl
          · exact absurd ((missing_isEmpty_iff (found.map Prod.fst)).mpr ⟨hc4, hc5⟩) hm
      · rw [if_neg hv, Bool.eq_false_iff.mpr hv]
        rfl

theorem main_exit (fs : FS) :
    (main fs).1 = if all_checks_pass fs then 0 else 1 := by
  rw [main_eq fs]
  exact verdict_exit (found_list fs)

/-- C7: the exit code is 0 exactly when all checks pass (at least one found
value, unanimity, valid format, both mandatory artifacts contributing), and
1 exactly on any failure. -/
theorem claim_C7_exit_code_iff (fs : FS) :
    ((main fs).1 = 0 ↔ all_checks_pass fs = true) ∧
    ((main fs).1 = 1 ↔ all_checks_pass fs = false) := by
  rw [main_exit fs]
  cases h : all_checks_pass fs <;> simp

/-- C8 counterexample: with `ai_data_collector/__init__.py` existing but
unreadable, the run does not convert the read error into a printed
diagnostic plus exit code 1: the script has no handler, so the exception
propagates out of `main` (modelled as `Except.error ()`) and the process
aborts abnormally. -/
theorem claim_C8_counterexample :
    main_io ⟨.unreadable, .readable "version = \"1.0.0\"\n", .absent, .absent, .absent⟩ =
      Except.error () := rfl

/-- C8 amended: an I/O error raised while reading any of the five artifact
files is caught nowhere: it propagates out of `main` and aborts the run
abnormally, producing neither a diagnostic line nor an ordinary exit code. -/
theorem claim_C8_amended_uncaught (fs : FSIO)
    (h : fs.initFile = .unreadable ∨ fs.pyprojectFile = .unreadable ∨
         fs.setupFile = .unreadable ∨ fs.dockerFile = .unreadable ∨
         fs.workflowFile = .unreadable) :
    main_io fs = Except.error () := by
  unfold main_io
  cases h1 : extract_version_from_init_io fs with
  | error e => cases e; rfl
  | ok i =>
    cases h2 : extract_version_from_pyproject_io fs with
    | error e => cases e; rfl
    | ok p =>
      cases h3 : extract_version_from_setup_io fs with
      | error e => cases e; rfl
      | ok s =>
        cases h4 : extract_version_from_dockerfile_io fs with
        | error e => cases e; rfl
        | ok d =>
          cases h5 : extract_version_from_github_workflow_io fs with
          | error e => cases e; rfl
          | ok g =>
            exfalso
            rcases h with hx | hx | hx | hx | hx
            · unfold extract_version_from_init_io at h1
              rw [hx] at h1
              simp at h1
            · unfold extract_version_from_pyproject_io at h2
              rw [hx] at h2
              simp at h2
            · unfold extract_version_from_setup_io at h3
              rw [hx] at h3
              simp at h3
            · unfold extract_version_from_dockerfile_io at h4
              rw [hx] at h4
              simp at h4
            · unfold extract_version_from_github_workflow_io at h5
              rw [hx] at h5
              simp at h5

/-- Witness for amended C8: an unreadable `.github/workflows/ci.yml` aborts
the run even though every other file is fine. -/
theorem claim_C8_witness :
    ((⟨.readable "__version__ = \"1.0.0\"\n", .readable "version = \"1.0.0\"\n",
        .absent, .absent, .unreadable⟩ : FSIO).initFile = .unreadable ∨
     (⟨.readable "__version__ = \"1.0.0\"\n", .readable "version = \"1.0.0\"\n",
        .absent, .absent, .unreadable⟩ : FSIO).pyprojectFile = .unreadable ∨
     (⟨.readable "__version__ = \"1.0.0\"\n", .readable "version = \"1.0.0\"\n",
        .absent, .absent, .unreadable⟩ : FSIO).setupFile = .unreadable ∨
     (⟨.readable "__version__ = \"1.0.0\"\n", .readable "version = \"1.0.0\"\n",
        .absent, .absent, .unreadable⟩ : FSIO).dockerFile = .unreadable ∨
     (⟨.readable "__version__ = \"1.0.0\"\n", .readable "version = \"1.0.0\"\n",
        .absent, .absent, .unreadable⟩ : FSIO).workflowFile = .unreadable) ∧
    main_io ⟨.readable "__version__ = \"1.0.0\"\n", .readable "version = \"1.0.0\"\n",
        .absent, .absent, .unreadable⟩ = Except.error () :=
  ⟨Or.inr (Or.inr (Or.inr (Or.inr rfl))),
    claim_C8_amended_uncaught _ (Or.inr (Or.inr (Or.inr (Or.inr rfl))))⟩

/-- C9: the CIWorkflow extractor matches `VERSION:` as a bare substring, so
a longer key ending in `VERSION:` is picked up: on a workflow that contains
`PYTHON_VERSION: 3.11` and no standalone `VERSION` key, it returns 3.11. -/
theorem claim_C9_workflow_substring_match :
    containsStr "PYTHON_VERSION: 3.11" "name: CI\nenv:\n  PYTHON_VERSION: 3.11\n" = true ∧
    containsStr "\nVERSION:" "name: CI\nenv:\n  PYTHON_VERSION: 3.11\n" = false ∧
    containsStr " VERSION:" "name: CI\nenv:\n  PYTHON_VERSION: 3.11\n" = false ∧
    extract_version_from_github_workflow
      ⟨none, none, none, none, some "name: CI\nenv:\n  PYTHON_VERSION: 3.11\n"⟩ =
      (some "3.11", []) :=
  ⟨by decide, by decide, by decide, by decide⟩

/-! ### Correctness of the Format Validator against the spec grammar -/

theorem headFails_cons {α : Type} (p : α → Bool) (c : α) (l : List α) :
    headFails p (c :: l) ↔ p c = false := Iff.rfl

theorem headFails_nil {α : Type} (p : α → Bool) : headFails p [] := trivial

theorem takeWhile_all {α : Type} (p : α → Bool) (a : List α)
    (ha : ∀ x ∈ a, p x = true) : a.takeWhile p = a := by
  have h := takeWhile_append_eq p a [] ha (headFails_nil p)
  simpa using h

theorem dropWhile_all {α : Type} (p : α → Bool) (a : List α)
    (ha : ∀ x ∈ a, p x = true) : a.dropWhile p = [] := by
  have h := dropWhile_append_eq p a [] ha (headFails_nil p)
  simpa using h

theorem intercalate_cons₂ (s : Char) (i j : List Char) (rest : List (List Char)) :
    [s].intercalate (i :: j :: rest) = i ++ (s :: [s].intercalate (j :: rest)) := by
  simp [List.intercalate, List.intersperse_cons_cons]

/-- Every character of a dot-joined identifier list is the dot or comes from
one of the identifiers. -/
theorem intercalate_chars (P : Char → Prop) (ids : List (List Char))
    (hdot : P '.') (hids : ∀ i ∈ ids, ∀ c ∈ i, P c) :
    ∀ c ∈ ['.'].intercalate ids, P c := by
  induction ids with
  | nil => intro c hc; simp [List.intercalate] at hc
  | cons i rest ih =>
    cases rest with
    | nil =>
      intro c hc
      simp only [show List.intercalate ['.'] [i] = i from by simp [List.intercalate]] at hc
      exact hids i (by simp) c hc
    | cons j rest2 =>
      intro c hc
      rw [intercalate_cons₂] at hc
      rcases List.mem_append.mp hc with h | h
      · exact hids i (by simp) c h
      rcases List.mem_cons.mp h with h | h
      · rw [h]; exact hdot
      · exact ih (fun k hk => hids k (by simp [hk])) c h

theorem checkIds_iff (l : List Char) :
    checkIds l = true ↔
      ∃ ids, ids ≠ [] ∧ (∀ i ∈ ids, IsIdentL i) ∧ l = ['.'].intercalate ids := by
  constructor
  · intro h
    refine ⟨l.splitOn '.', ?_, ?_, (List.intercalate_splitOn l '.').symm⟩
    · unfold List.splitOn
      exact List.splitOnP_ne_nil _ l
    · intro i hi
      unfold checkIds at h
      rw [List.all_eq_true] at h
      have hseg := h i hi
      rw [Bool.and_eq_true] at hseg
      refine ⟨?_, ?_⟩
      · intro e
        rw [e] at hseg
        simp at hseg
      · intro c hc
        have hall := hseg.2
        rw [List.all_eq_true] at hall
        exact hall c hc
  · rintro ⟨ids, hne, hid, rfl⟩
    have hsplit : (['.'].intercalate ids).splitOn '.' = ids := by
      apply List.splitOn_intercalate
      · intro i hi hdot
        have hident := (hid i hi).2 '.' hdot
        exact absurd hident (by decide)
      · exact hne
    unfold checkIds
    rw [hsplit, List.all_eq_true]
    intro i hi
    rw [Bool.and_eq_true]
    obtain ⟨hne2, hall⟩ := hid i hi
    refine ⟨by simpa [List.isEmpty_iff] using hne2, List.all_eq_true.mpr hall⟩

theorem checkBuild_iff (l : List Char) :
    checkBuild l = true ↔ IsOptSuffix '+' l := by
  cases l with
  | nil =>
    simp only [checkBuild, IsOptSuffix]
    simp
  | cons c rest =>
    by_cases hc : c = '+'
    · subst hc
      rw [show checkBuild ('+' :: rest) = checkIds rest from by simp [checkBuild]]
      rw [checkIds_iff]
      constructor
      · rintro ⟨ids, h1, h2, rfl⟩
        exact Or.inr ⟨ids, h1, h2, rfl⟩
      · rintro (h | ⟨ids, h1, h2, heq⟩)
        · cases h
        · rw [List.cons.injEq] at heq
          exact ⟨ids, h1, h2, heq.2⟩
    · rw [show checkBuild (c :: rest) = false from by simp [checkBuild, hc]]
      constructor
      · intro h; cases h
      · rintro (h | ⟨ids, h1, h2, heq⟩)
        · cases h
        · rw [List.cons.injEq] at heq
          exact absurd heq.1 hc

theorem checkSuffixes_iff (l : List Char) :
    checkSuffixes l = true ↔
      ∃ pre build, IsOptSuffix '-' pre ∧ IsOptSuffix '+' build ∧ l = pre ++ build := by
  constructor
  · intro h
    cases l with
    | nil => exact ⟨[], [], Or.inl rfl, Or.inl rfl, rfl⟩
    | cons c rest =>
      by_cases hc : c = '-'
      · subst hc
        rw [show checkSuffixes ('-' :: rest) =
              (checkIds (rest.takeWhile fun d => !(d = '+')) &&
                checkBuild (rest.dropWhile fun d => !(d = '+'))) from by
            simp [checkSuffixes]] at h
        rw [Bool.and_eq_true] at h
        obtain ⟨h1, h2⟩ := h
        obtain ⟨ids, hne, hid, hpre⟩ := (checkIds_iff _).mp h1
        refine ⟨'-' :: (rest.takeWhile fun d => !(d = '+')),
                rest.dropWhile fun d => !(d = '+'),
                Or.inr ⟨ids, hne, hid, by rw [hpre]⟩, (checkBuild_iff _).mp h2, ?_⟩
        rw [List.cons_append, List.takeWhile_append_dropWhile]
      · by_cases hc2 : c = '+'
        · subst hc2
          rw [show checkSuffixes ('+' :: rest) = checkIds rest from by
              simp [checkSuffixes]] at h
          obtain ⟨ids, hne, hid, hr⟩ := (checkIds_iff _).mp h
          exact ⟨[], '+' :: rest, Or.inl rfl, Or.inr ⟨ids, hne, hid, by rw [hr]⟩, rfl⟩
        · rw [show checkSuffixes (c :: rest) = false from by
              simp [checkSuffixes, hc, hc2]] at h
          cases h
  · rintro ⟨pre, build, hpre, hbuild, rfl⟩
    rcases hpre with rfl | ⟨ids, hne, hid, rfl⟩
    · rw [List.nil_append]
      rcases hbuild with rfl | ⟨ids2, hne2, hid2, rfl⟩
      · simp [checkSuffixes]
      · rw [show checkSuffixes ('+' :: ['.'].intercalate ids2) =
              checkIds (['.'].intercalate ids2) from by simp [checkSuffixes]]
        exact (checkIds_iff _).mpr ⟨ids2, hne2, hid2, rfl⟩
    · have hplus : ∀ d ∈ ['.'].intercalate ids, (fun d => !(d = '+')) d = true := by
        intro d hd
        have hne2 : d ≠ '+' := by
          refine intercalate_chars (fun x => x ≠ '+') ids (by decide) ?_ d hd
          intro i hi c hc e
          subst e
          have hident := (hid i hi).2 '+' hc
          exact absurd hident (by decide)
        simpa using hne2
      rw [List.cons_append]
      rcases hbuild with rfl | ⟨ids2, hne2, hid2, rfl⟩
      · rw [List.append_nil]
        rw [show checkSuffixes ('-' :: ['.'].intercalate ids) =
              (checkIds ((['.'].intercalate ids).takeWhile fun d => !(d = '+')) &&
                checkBuild ((['.'].intercalate ids).dropWhile fun d => !(d = '+'))) from by
            simp [checkSuffixes]]
        rw [Bool.and_eq_true]
        constructor
        · rw [takeWhile_all _ _ hplus]
          exact (checkIds_iff _).mpr ⟨ids, hne, hid, rfl⟩
        · rw [dropWhile_all _ _ hplus]
          simp [checkBuild]
      · rw [show checkSuffixes ('-' ::
              (['.'].intercalate ids ++ '+' :: ['.'].intercalate ids2)) =
              (checkIds ((['.'].intercalate ids ++ '+' :: ['.'].intercalate ids2).takeWhile
                  fun d => !(d = '+')) &&
                checkBuild ((['.'].intercalate ids ++ '+' :: ['.'].intercalate ids2).dropWhile
                  fun d => !(d = '+'))) from by simp [checkSuffixes]]
        rw [Bool.and_eq_true]
        constructor
        · rw [takeWhile_append_eq _ _ _ hplus ((headFails_cons _ _ _).mpr (by decide))]
          exact (checkIds_iff _).mpr ⟨ids, hne, hid, rfl⟩
        · rw [dropWhile_append_eq _ _ _ hplus ((headFails_cons _ _ _).mpr (by decide))]
          rw [show checkBuild ('+' :: ['.'].intercalate ids2) =
                checkIds (['.'].intercalate ids2) from by simp [checkBuild]]
          exact (checkIds_iff _).mpr ⟨ids2, hne2, hid2, rfl⟩

theorem numDot_sound {cs r : List Char} (h : numDot cs = some r) :
    ∃ a, IsNumL a ∧ cs = a ++ '.' :: r := by
  unfold numDot at h
  by_cases he : (cs.takeWhile Char.isDigit).isEmpty = true
  · rw [if_pos he] at h; cases h
  · rw [if_neg he] at h
    cases hd : cs.dropWhile Char.isDigit with
    | nil => rw [hd] at h; cases h
    | cons c rest =>
      rw [hd] at h
      have h2 : (if c = '.' then some rest else none) = some r := h
      by_cases hc : c = '.'
      · rw [if_pos hc] at h2
        cases h2
        refine ⟨cs.takeWhile Char.isDigit, ⟨?_, fun x hx => List.mem_takeWhile_imp hx⟩, ?_⟩
        · intro e; rw [e] at he; simp at he
        · have hsplit := List.takeWhile_append_dropWhile (p := Char.isDigit) (l := cs)
          rw [hd, hc] at hsplit
          exact hsplit.symm
      · rw [if_neg hc] at h2; cases h2

theorem numDot_complete (a r : List Char) (ha : IsNumL a) :
    numDot (a ++ '.' :: r) = some r := by
  obtain ⟨hne, hdig⟩ := ha
  have ht : (a ++ '.' :: r).takeWhile Char.isDigit = a :=
    takeWhile_append_eq _ a ('.' :: r) hdig ((headFails_cons _ _ _).mpr (by decide))
  have hd : (a ++ '.' :: r).dropWhile Char.isDigit = '.' :: r :=
    dropWhile_append_eq _ a ('.' :: r) hdig ((headFails_cons _ _ _).mpr (by decide))
  unfold numDot
  rw [ht, hd, if_neg (by simpa [List.isEmpty_iff] using hne)]
  simp

theorem numOnly_sound {cs r : List Char} (h : numOnly cs = some r) :
    ∃ a, IsNumL a ∧ cs = a ++ r ∧ headFails Char.isDigit r := by
  unfold numOnly at h
  by_cases he : (cs.takeWhile Char.isDigit).isEmpty = true
  · rw [if_pos he] at h; cases h
  · rw [if_neg he] at h
    cases h
    refine ⟨cs.takeWhile Char.isDigit, ⟨?_, fun x hx => List.mem_takeWhile_imp hx⟩,
      (List.takeWhile_append_dropWhile (p := Char.isDigit) (l := cs)).symm, ?_⟩
    · intro e; rw [e] at he; simp at he
    · cases hd : cs.dropWhile Char.isDigit with
      | nil => exact headFails_nil _
      | cons c rest =>
        exact (headFails_cons _ _ _).mpr (dropWhile_head_false _ _ _ _ hd)

theorem numOnly_complete (a r : List Char) (ha : IsNumL a)
    (hr : headFails Char.isDigit r) : numOnly (a ++ r) = some r := by
  obtain ⟨hne, hdig⟩ := ha
  unfold numOnly
  rw [takeWhile_append_eq _ a r hdig hr, dropWhile_append_eq _ a r hdig hr,
    if_neg (by simpa [List.isEmpty_iff] using hne)]

theorem semver_core_iff (l : List Char) : semver_core l = true ↔ SemverSpecL l := by
  constructor
  · intro h
    unfold semver_core at h
    cases h1 : numDot l with
    | none => rw [h1] at h; cases h
    | some r2 =>
      rw [h1] at h
      have h2x : (match numDot r2 with
        | none => false
        | some r4 =>
          match numOnly r4 with
          | none => false
          | some r5 => checkSuffixes r5) = true := h
      cases h2 : numDot r2 with
      | none => rw [h2] at h2x; cases h2x
      | some r4 =>
        rw [h2] at h2x
        have h3x : (match numOnly r4 with
          | none => false
          | some r5 => checkSuffixes r5) = true := h2x
        cases h3 : numOnly r4 with
        | none => rw [h3] at h3x; cases h3x
        | some r5 =>
          rw [h3] at h3x
          have h : checkSuffixes r5 = true := h3x
          obtain ⟨a, ha, hla⟩ := numDot_sound h1
          obtain ⟨b, hb, hlb⟩ := numDot_sound h2
          obtain ⟨c, hc, hlc, _⟩ := numOnly_sound h3
          obtain ⟨pre, build, hpre, hbuild, hr5⟩ := (checkSuffixes_iff r5).mp h
          refine ⟨a, b, c, pre, build, ha, hb, hc, hpre, hbuild, ?_⟩
          rw [hla, hlb, hlc, hr5]
  · rintro ⟨a, b, c, pre, build, ha, hb, hc, hpre, hbuild, rfl⟩
    have hhead : headFails Char.isDigit (pre ++ build) := by
      rcases hpre with rfl | ⟨ids, hne, hid, rfl⟩
      · rcases hbuild with rfl | ⟨ids2, hne2, hid2, rfl⟩
        · exact headFails_nil _
        · exact (headFails_cons _ _ _).mpr (by decide)
      · exact (headFails_cons _ _ _).mpr (by decide)
    simp only [semver_core, numDot_complete a _ ha, numDot_complete b _ hb,
      numOnly_complete c _ hc hhead]
    exact (checkSuffixes_iff _).mpr ⟨pre, build, hpre, hbuild, rfl⟩

/-- The full behaviour of `validate_version_format`: it accepts exactly the
spec's semver grammar, except that one trailing newline is tolerated. -/
theorem validate_version_format_iff (s : String) :
    validate_version_format s = true ↔
      (SemverSpecL s.toList ∨ ∃ t, s.toList = t ++ ['\n'] ∧ SemverSpecL t) := by
  unfold validate_version_format
  rw [Bool.or_eq_true]
  constructor
  · rintro (h | h)
    · exact Or.inl ((semver_core_iff _).mp h)
    · cases hg : s.toList.getLast? with
      | none => rw [hg] at h; cases h
      | some c =>
        rw [hg] at h
        have h2 : (if c = '\n' then semver_core s.toList.dropLast else false) = true := h
        by_cases hc : c = '\n'
        · rw [if_pos hc] at h2
          subst hc
          have hnn : s.toList ≠ [] := by
            intro e; rw [e] at hg; cases hg
          refine Or.inr ⟨s.toList.dropLast, ?_, (semver_core_iff _).mp h2⟩
          have hsplit := List.dropLast_append_getLast hnn
          have hlast : s.toList.getLast hnn = '\n' := by
            have hgl := List.getLast?_eq_getLast s.toList hnn
            rw [hg] at hgl
            exact (Option.some_inj.mp hgl).symm
          rw [hlast] at hsplit
          exact hsplit.symm
        · rw [if_neg hc] at h2; cases h2
  · rintro (h | ⟨t, ht, hsem⟩)
    · exact Or.inl ((semver_core_iff _).mpr h)
    · right
      rw [ht, List.getLast?_concat, List.dropLast_concat]
      simp only [if_pos rfl]
      exact (semver_core_iff _).mpr hsem

theorem intercalate_no_newline (ids : List (List Char)) (hid : ∀ i ∈ ids, IsIdentL i) :
    '\n' ∉ ['.'].intercalate ids := by
  intro hmem
  refine (intercalate_chars (fun d => d ≠ '\n') ids (by decide) ?_ '\n' hmem) rfl
  intro i hi c hc e
  subst e
  have hident := (hid i hi).2 '\n' hc
  exact absurd hident (by decide)

/-- No string in the spec's semver grammar contains a newline. -/
theorem SemverSpecL_no_newline {l : List Char} (h : SemverSpecL l) : '\n' ∉ l := by
  obtain ⟨a, b, c, pre, build, ha, hb, hc, hpre, hbuild, rfl⟩ := h
  intro hmem
  have hdig : ∀ x : List Char, IsNumL x → '\n' ∉ x := by
    intro x hx hm
    have hd := hx.2 '\n' hm
    exact absurd hd (by decide)
  have hsuf : ∀ (mark : Char) (x : List Char), mark ≠ '\n' → IsOptSuffix mark x →
      '\n' ∉ x := by
    intro mark x hmark hx hm
    rcases hx with rfl | ⟨ids, _, hid, rfl⟩
    · simp at hm
    · rcases List.mem_cons.mp hm with h1 | h1
      · exact hmark h1.symm
      · exact intercalate_no_newline ids hid h1
  rcases List.mem_append.mp hmem with h1 | h1
  · exact hdig a ha h1
  rcases List.mem_cons.mp h1 with h1 | h1
  · exact absurd h1 (by decide)
  rcases List.mem_append.mp h1 with h1 | h1
  · exact hdig b hb h1
  rcases List.mem_cons.mp h1 with h1 | h1
  · exact absurd h1 (by decide)
  rcases List.mem_append.mp h1 with h1 | h1
  · exact hdig c hc h1
  rcases List.mem_append.mp h1 with h1 | h1
  · exact hsuf '-' pre (by decide) hpre h1
  · exact hsuf '+' build (by decide) hbuild h1

/-- C3 counterexample: the Format Validator accepts `"1.0.0\n"`, a string
with trailing whitespace that is not of the claimed `MAJOR.MINOR.PATCH`
form; the claimed exact characterization is therefore false.  (Python `$`
also matches just before one final newline.) -/
theorem claim_C3_counterexample :
    validate_version_format "1.0.0\n" = true ∧ ¬ SemverSpecL "1.0.0\n".toList :=
  ⟨by decide, fun h => SemverSpecL_no_newline h (by decide)⟩

/-- C3 amended: the Format Validator returns true exactly for strings of the
spec's semver grammar, or such a string followed by one trailing newline
(Python `$` tolerates exactly that); no other surrounding whitespace is
accepted, and all eight of the claim's examples behave as stated. -/
theorem claim_C3_validator_characterization :
    (∀ s : String, validate_version_format s = true ↔
       (SemverSpecL s.toList ∨ ∃ t, s.toList = t ++ ['\n'] ∧ SemverSpecL t)) ∧
    validate_version_format "1.0.0" = true ∧
    validate_version_format "2.3.4-alpha.1" = true ∧
    validate_version_format "1.0.0+build.5" = true ∧
    validate_version_format "1.0.0-rc.1+exp.sha.abc" = true ∧
    validate_version_format "1.0" = false ∧
    validate_version_format "v1.0.0" = false ∧
    validate_version_format "1.0.0 " = false ∧
    validate_version_format "1.0.0-" = false :=
  ⟨validate_version_format_iff, by decide, by decide, by decide, by decide,
    by decide, by decide, by decide, by decide⟩

end VersionCheck
